import Mathlib

/-!
Verification of the backend sidecar supervisor in `src-tauri/src/lib.rs`.

The supervisor state (`AppState`), the stdout/stderr relay loop of
`start_backend`, `stop_backend`, `get_backend_port`, and the window
close-event handler of `run` are embedded as pure Lean functions.
Stdout and stderr lines are modelled as their lossily UTF-8 decoded text
(`String::from_utf8_lossy` is total), represented as `List Char`.
The effects a handler performs (lock operations, port writes, event
emissions, log prints, kill requests) are returned as an explicit trace
of `Action`s, in program order.
-/

namespace FSai

/-- The literal tag `BACKEND_PORT:` used by the relay loop. -/
def tagChars : List Char := "BACKEND_PORT:".data

/-- `startsWithChars p s` : does `s` start with `p`?  Embeds Rust
`str::starts_with` on the decoded line. -/
def startsWithChars : List Char → List Char → Bool
  | [], _ => true
  | _ :: _, [] => false
  | p :: ps, c :: cs => p == c && startsWithChars ps cs

/-- One fuelled pass removing every non-overlapping occurrence of `pat`,
left to right.  Embeds Rust `str::replace(pat, "")`. -/
def removeAllAux (pat : List Char) : Nat → List Char → List Char
  | _, [] => []
  | 0, s => s
  | fuel + 1, c :: cs =>
    if startsWithChars pat (c :: cs) then
      removeAllAux pat fuel (List.drop pat.length (c :: cs))
    else
      c :: removeAllAux pat fuel cs

/-- Remove every non-overlapping occurrence of `pat` from `s`
(Rust `s.replace(pat, "")`). -/
def removeAll (pat s : List Char) : List Char :=
  removeAllAux pat s.length s

/-- Unicode `White_Space` code points: exactly the characters Rust
`char::is_whitespace` accepts, hence what `str::trim` strips. -/
def rustWS (c : Char) : Bool :=
  decide (c.toNat ∈ ([9, 10, 11, 12, 13, 32, 133, 160, 5760,
    8192, 8193, 8194, 8195, 8196, 8197, 8198, 8199, 8200, 8201, 8202,
    8232, 8233, 8239, 8287, 12288] : List Nat))

/-- Rust `str::trim`: strip leading and trailing whitespace. -/
def trimRust (cs : List Char) : List Char :=
  ((cs.dropWhile rustWS).reverse.dropWhile rustWS).reverse

/-- ASCII decimal digit, as accepted by Rust `char::to_digit(10)`
inside `u16::from_str`. -/
def isDigitCh (c : Char) : Bool :=
  48 ≤ c.toNat && c.toNat ≤ 57

/-- Value of a digit string, most significant first. -/
def digitsToNat (cs : List Char) : Nat :=
  cs.foldl (fun a c => a * 10 + (c.toNat - 48)) 0

/-- The digit phase of `u16::from_str`: one or more ASCII digits whose
accumulated value fits in `u16`. -/
def parseDigits (cs : List Char) : Option Nat :=
  if cs ≠ [] ∧ cs.all isDigitCh = true ∧ digitsToNat cs ≤ 65535 then
    some (digitsToNat cs)
  else none

/-- Embeds Rust `str::parse::<u16>` (`u16::from_str`): an optional
leading `+` sign, then one or more ASCII digits whose accumulated value
fits in `u16`.  For an unsigned type `from_str_radix` accepts no `-`
sign — its negative arm is guarded by the signedness of the type — so
a leading `-` simply fails as an invalid digit. -/
def parseU16 (cs : List Char) : Option Nat :=
  if cs.head? = some '+' then
    parseDigits cs.tail
  else
    parseDigits cs

/-- The value the relay loop extracts from a stdout line: the line must
start with `BACKEND_PORT:`; then every occurrence of that tag is removed
(Rust `replace`), the result trimmed, and parsed as `u16`. -/
def announcedValue (line : List Char) : Option Nat :=
  if startsWithChars tagChars line then
    parseU16 (trimRust (removeAll tagChars line))
  else none

/-- The managed state: `AppState { backend_port: Mutex<Option<u16>>,
child_process: Mutex<Option<CommandChild>> }`.  A `CommandChild` handle
is opaque to the supervisor; it is modelled by a `Nat` identifier. -/
structure AppState where
  backend_port : Option Nat
  child_process : Option Nat
deriving DecidableEq

/-- `AppState::default()`: both slots empty. -/
def defaultState : AppState := ⟨none, none⟩

/-- The observable effects of the handlers, in program order. -/
inductive Action where
  | acqPortLock : Action
  | wrPort (p : Nat) : Action
  | relPortLock : Action
  | emitReady (p : Nat) : Action
  | logInfo (s : String) : Action
  | logErr (s : String) : Action
  | kill (child : Nat) : Action
deriving DecidableEq

/-- The events delivered on the sidecar channel
(`tauri_plugin_shell::process::CommandEvent`), lines already decoded. -/
inductive CommandEvent where
  | stdout (line : List Char)
  | stderr (line : List Char)
  | error (msg : String)
  | terminated
deriving DecidableEq

/-- One iteration of the relay loop in `start_backend`: dispatch on the
event, and for a stdout line run the tag check and parse.  On success
the port is written under the port lock (the inner block scope), the
lock is dropped at the end of that scope, and only then is
`backend-ready` emitted and the success line printed.  A stdout line
with the tag but a failing parse produces no effect at all; a stdout
line without the tag is printed; a stderr line is printed to the error
sink; other events are ignored. -/
def handleEvent (st : AppState) (ev : CommandEvent) : AppState × List Action :=
  match ev with
  | .stdout line =>
    if startsWithChars tagChars line then
      match parseU16 (trimRust (removeAll tagChars line)) with
      | some port =>
        ({ st with backend_port := some port },
         [.acqPortLock, .wrPort port, .relPortLock, .emitReady port,
          .logInfo ("Backend started on port: " ++ toString port)])
      | none => (st, [])
    else
      (st, [.logInfo ("[sidecar stdout]: " ++ String.mk line)])
  | .stderr line =>
    (st, [.logErr ("[sidecar stderr]: " ++ String.mk line)])
  | .error _ => (st, [])
  | .terminated => (st, [])

/-- Run the relay over a list of stdout lines, threading the state. -/
def processLines (st : AppState) (lines : List (List Char)) : AppState :=
  lines.foldl (fun s l => (handleEvent s (.stdout l)).1) st

/-- `get_backend_port`: lock, read, return `Ok` of the stored option. -/
def get_backend_port (st : AppState) : Except String (Option Nat) :=
  .ok st.backend_port

/-- Outcome of a call to `start_backend`, keeping the state it leaves
behind: a normal `Ok(())` return, an `Err` return, or a panic (the
source uses `.expect(..)` on sidecar creation and on spawn). -/
inductive StartOutcome where
  | ok (st : AppState) : StartOutcome
  | err (st : AppState) (msg : String) : StartOutcome
  | panicked (st : AppState) (msg : String) : StartOutcome
deriving DecidableEq

/-- The synchronous part of `start_backend`, parameterised by the
results the environment gives to `shell().sidecar("server")` and to
`spawn()`.  Either failure panics via `.expect`, before any state
write; on success the child handle is stored and `Ok(())` returned
(the relay task is spawned separately and modelled by `handleEvent`). -/
def start_backend (st : AppState) (sidecarRes : Except String Unit)
    (spawnRes : Except String Nat) : StartOutcome :=
  match sidecarRes with
  | .error _ => .panicked st "failed to create `server` binary command"
  | .ok _ =>
    match spawnRes with
    | .error _ => .panicked st "Failed to spawn sidecar"
    | .ok child => .ok { st with child_process := some child }

/-- `stop_backend`: take the child handle out of its slot; if one was
present issue the kill (whose OS result is the parameter `killRes`),
mapping a kill failure into an `Err` string; if the slot was empty do
nothing and return `Ok(())`. -/
def stop_backend (st : AppState) (killRes : Except String Unit) :
    AppState × List Action × Except String Unit :=
  match st.child_process with
  | some child =>
    match killRes with
    | .ok _ =>
      ({ st with child_process := none },
       [.kill child, .logInfo "Backend process terminated"], .ok ())
    | .error e =>
      ({ st with child_process := none },
       [.kill child], .error ("Failed to kill backend process: " ++ e))
  | none => (st, [], .ok ())

/-- The `CloseRequested` branch of `on_window_event` in `run`: same
take-then-kill shape as `stop_backend`, but a kill failure is only
logged, never returned. -/
def onCloseRequested (st : AppState) (killRes : Except String Unit) :
    AppState × List Action :=
  match st.child_process with
  | some child =>
    match killRes with
    | .ok _ =>
      ({ st with child_process := none },
       [.kill child, .logInfo "Backend process terminated on window close"])
    | .error e =>
      ({ st with child_process := none },
       [.kill child,
        .logErr ("Failed to kill backend process on window close: " ++ e)])
  | none => (st, [])

/-- Number of `emitReady` actions in a trace. -/
def countEmits (tr : List Action) : Nat :=
  tr.countP (fun a => match a with | .emitReady _ => true | _ => false)

/-- Number of `kill` actions in a trace. -/
def countKills (tr : List Action) : Nat :=
  tr.countP (fun a => match a with | .kill _ => true | _ => false)

/-- Scan a trace with the current port-lock depth; `true` iff every
`emitReady` occurs while the port lock is held. -/
def emitsUnderLockAux : Nat → List Action → Bool
  | _, [] => true
  | d, .acqPortLock :: rest => emitsUnderLockAux (d + 1) rest
  | d, .relPortLock :: rest => emitsUnderLockAux (d - 1) rest
  | d, .emitReady _ :: rest => decide (0 < d) && emitsUnderLockAux d rest
  | d, _ :: rest => emitsUnderLockAux d rest

/-- `true` iff every ready notification in the trace is emitted inside
the port-registry critical section. -/
def emitsUnderLock (tr : List Action) : Bool :=
  emitsUnderLockAux 0 tr

/-- Whitespace as the spec regular expression class matches:
space, tab, newline, vertical tab, form feed, carriage return. -/
def regexWS (c : Char) : Bool :=
  decide (c.toNat ∈ ([9, 10, 11, 12, 13, 32] : List Nat))

/-- Strip a literal from the front of a string, or fail. -/
def stripLit : List Char → List Char → Option (List Char)
  | [], s => some s
  | _ :: _, [] => none
  | p :: ps, c :: cs => if p == c then stripLit ps cs else none

/-- The maximal digit run after the leading whitespace of the
post-tag remainder. -/
def restDigits (rest : List Char) : List Char :=
  (rest.dropWhile regexWS).takeWhile isDigitCh

/-- Modelled from the spec's words (for comparison with the code-side
`announcedValue`): the shape `^BACKEND_PORT:\s*\d\x7b1,5\x7d\s*$` with
the numeric value in `[0, 65535]`; returns that value when the line
matches. -/
def specAnnounce (cs : List Char) : Option Nat :=
  match stripLit tagChars cs with
  | none => none
  | some rest =>
    if 1 ≤ (restDigits rest).length ∧ (restDigits rest).length ≤ 5 ∧
        ((rest.dropWhile regexWS).dropWhile isDigitCh).all regexWS = true ∧
        digitsToNat (restDigits rest) ≤ 65535 then
      some (digitsToNat (restDigits rest))
    else none

/-! ### Helper lemmas -/

/-- The tag as an explicit character list. -/
lemma tagChars_eq :
    tagChars = ['B', 'A', 'C', 'K', 'E', 'N', 'D', '_', 'P', 'O', 'R', 'T', ':'] :=
  rfl

/-- Characters matched by the regex whitespace class are Rust whitespace. -/
lemma regexWS_rustWS (c : Char) (h : regexWS c = true) : rustWS c = true := by
  simp only [regexWS, decide_eq_true_eq, List.mem_cons, List.mem_singleton,
    List.not_mem_nil, or_false] at h
  simp only [rustWS, decide_eq_true_eq, List.mem_cons, List.mem_singleton,
    List.not_mem_nil, or_false]
  omega

/-- An ASCII digit is not Rust whitespace. -/
lemma digit_not_ws (c : Char) (h : isDigitCh c = true) : rustWS c = false := by
  simp only [isDigitCh, Bool.and_eq_true, decide_eq_true_eq] at h
  simp only [rustWS, decide_eq_false_iff_not, List.mem_cons, List.mem_singleton,
    List.not_mem_nil, or_false]
  omega

/-- An ASCII digit is not the letter `B`. -/
lemma digit_ne_B (c : Char) (h : isDigitCh c = true) : c ≠ 'B' := by
  intro he
  subst he
  exact absurd h (by decide)

/-- A regex-whitespace character is not the letter `B`. -/
lemma ws_ne_B (c : Char) (h : regexWS c = true) : c ≠ 'B' := by
  intro he
  subst he
  exact absurd h (by decide)

/-- A list starts with itself followed by anything. -/
lemma startsWith_app (p s : List Char) : startsWithChars p (p ++ s) = true := by
  induction p with
  | nil => rfl
  | cons a ps ih => simp [startsWithChars, ih]

/-- A successful `stripLit` decomposes its input. -/
lemma stripLit_some : ∀ (p s r : List Char), stripLit p s = some r →
    s = p ++ r ∧ startsWithChars p s = true := by
  intro p
  induction p with
  | nil =>
    intro s r h
    simp only [stripLit, Option.some.injEq] at h
    subst h
    exact ⟨rfl, rfl⟩
  | cons a ps ih =>
    intro s r h
    cases s with
    | nil => exact absurd h (by simp [stripLit])
    | cons c cs =>
      by_cases hac : (a == c) = true
      · rw [stripLit, if_pos hac] at h
        obtain ⟨h1, h2⟩ := ih cs r h
        have hac' : a = c := by simpa using hac
        subst hac'
        refine ⟨by rw [List.cons_append, ← h1], ?_⟩
        simp [startsWithChars, h2]
      · rw [stripLit, if_neg hac] at h
        exact absurd h (by simp)

/-- Unfolding `removeAllAux` one step on a cons cell with fuel left. -/
lemma removeAllAux_cons (pat : List Char) (fuel : Nat) (c : Char) (cs : List Char) :
    removeAllAux pat (fuel + 1) (c :: cs) =
      if startsWithChars pat (c :: cs) then
        removeAllAux pat fuel (List.drop pat.length (c :: cs))
      else c :: removeAllAux pat fuel cs :=
  rfl

/-- `removeAllAux` leaves a string containing no `B` untouched: the tag
starts with `B`, so no occurrence can begin anywhere. -/
lemma removeAllAux_id (fuel : Nat) : ∀ (s : List Char), (∀ c ∈ s, c ≠ 'B') →
    removeAllAux tagChars fuel s = s := by
  induction fuel with
  | zero => intro s _; cases s <;> rfl
  | succ f ih =>
    intro s h
    cases s with
    | nil => rfl
    | cons c cs =>
      rw [removeAllAux_cons]
      have hcB : (('B' : Char) == c) = false := by
        have := h c (List.mem_cons_self c cs)
        simp only [beq_eq_false_iff_ne, ne_eq]
        exact fun hh => this hh.symm
      have hW : startsWithChars tagChars (c :: cs) = false := by
        rw [tagChars_eq]
        simp [startsWithChars, hcB]
      rw [hW]
      simp only [Bool.false_eq_true, if_false]
      rw [ih cs (fun x hx => h x (List.mem_cons_of_mem _ hx))]

/-- Removing the tag from `tag ++ rest` yields `rest` when `rest`
contains no `B`. -/
lemma removeAll_tag (rest : List Char) (h : ∀ c ∈ rest, c ≠ 'B') :
    removeAll tagChars (tagChars ++ rest) = rest := by
  have hlen : (tagChars ++ rest).length = (12 + rest.length) + 1 := by
    rw [List.length_append, tagChars_eq]
    simp
    omega
  have hcons : tagChars ++ rest =
      'B' :: (['A', 'C', 'K', 'E', 'N', 'D', '_', 'P', 'O', 'R', 'T', ':'] ++ rest) := by
    rw [tagChars_eq]
    rfl
  unfold removeAll
  rw [hlen, hcons, removeAllAux_cons, ← hcons, startsWith_app, if_pos rfl]
  have hdrop : List.drop tagChars.length (tagChars ++ rest) = rest :=
    List.drop_left tagChars rest
  rw [hdrop]
  exact removeAllAux_id _ rest h

/-- Every element of a `takeWhile` satisfies the predicate. -/
lemma mem_takeWhile_sat (p : Char → Bool) : ∀ (l : List Char), ∀ c ∈ l.takeWhile p,
    p c = true := by
  intro l
  induction l with
  | nil => intro c hc; exact absurd hc (by simp)
  | cons a t ih =>
    intro c hc
    by_cases ha : p a = true
    · rw [List.takeWhile_cons, if_pos ha] at hc
      rcases List.mem_cons.mp hc with h1 | h2
      · rwa [h1]
      · exact ih c h2
    · rw [List.takeWhile_cons, if_neg ha] at hc
      exact absurd hc (by simp)

/-- `dropWhile` skips over an all-satisfying block. -/
lemma dropWhile_app_all (p : Char → Bool) : ∀ (l1 l2 : List Char),
    (∀ c ∈ l1, p c = true) → (l1 ++ l2).dropWhile p = l2.dropWhile p := by
  intro l1
  induction l1 with
  | nil => intro l2 _; rfl
  | cons a t ih =>
    intro l2 h
    rw [List.cons_append, List.dropWhile_cons, if_pos (h a (List.mem_cons_self a t))]
    exact ih l2 (fun c hc => h c (List.mem_cons_of_mem _ hc))

/-- `dropWhile` stops at a failing head. -/
lemma dropWhile_cons_false (p : Char → Bool) (c : Char) (l : List Char)
    (h : p c = false) : (c :: l).dropWhile p = c :: l := by
  rw [List.dropWhile_cons, h]
  simp

/-- Trimming whitespace–digits–whitespace leaves exactly the digits. -/
lemma trim_shape (ws1 digits r2 : List Char)
    (h1 : ∀ c ∈ ws1, rustWS c = true)
    (hd : ∀ c ∈ digits, isDigitCh c = true)
    (hne : digits ≠ [])
    (h2 : ∀ c ∈ r2, rustWS c = true) :
    trimRust (ws1 ++ digits ++ r2) = digits := by
  obtain ⟨d, ds, hds⟩ : ∃ d ds, digits = d :: ds := by
    cases digits with
    | nil => exact absurd rfl hne
    | cons d ds => exact ⟨d, ds, rfl⟩
  unfold trimRust
  have hstep1 : (ws1 ++ digits ++ r2).dropWhile rustWS = digits ++ r2 := by
    rw [List.append_assoc, dropWhile_app_all rustWS ws1 _ h1, hds, List.cons_append]
    exact dropWhile_cons_false rustWS d _
      (digit_not_ws d (hd d (by rw [hds]; exact List.mem_cons_self d ds)))
  rw [hstep1, List.reverse_append,
    dropWhile_app_all rustWS r2.reverse _ (fun c hc => h2 c (List.mem_reverse.mp hc))]
  obtain ⟨e, es, hes⟩ : ∃ e es, digits.reverse = e :: es := by
    cases he : digits.reverse with
    | nil => exact absurd (List.reverse_eq_nil_iff.mp he) hne
    | cons e es => exact ⟨e, es, rfl⟩
  have hemem : e ∈ digits := by
    rw [← List.mem_reverse, hes]
    exact List.mem_cons_self e es
  rw [hes, dropWhile_cons_false rustWS e es (digit_not_ws e (hd e hemem)), ← hes,
    List.reverse_reverse]

/-- `parseU16` on a nonempty in-range digit string returns its value. -/
lemma parseU16_digits (digits : List Char) (hne : digits ≠ [])
    (hd : ∀ c ∈ digits, isDigitCh c = true)
    (hv : digitsToNat digits ≤ 65535) :
    parseU16 digits = some (digitsToNat digits) := by
  obtain ⟨d, ds, hds⟩ : ∃ d ds, digits = d :: ds := by
    cases digits with
    | nil => exact absurd rfl hne
    | cons d ds => exact ⟨d, ds, rfl⟩
  have hdd : isDigitCh d = true := hd d (by rw [hds]; exact List.mem_cons_self d ds)
  have hplus : ¬ digits.head? = some '+' := by
    rw [hds]
    simp only [List.head?_cons, Option.some.injEq]
    intro he
    rw [he] at hdd
    exact absurd hdd (by decide)
  rw [parseU16, if_neg hplus, parseDigits,
    if_pos ⟨hne, List.all_eq_true.mpr hd, hv⟩]

/-- Refinement of the spec shape into the code pipeline: every line the
spec regular expression accepts is parsed by the code to the same
value. -/
lemma spec_le_code (cs : List Char) (p : Nat) (h : specAnnounce cs = some p) :
    announcedValue cs = some p := by
  unfold specAnnounce at h
  cases hs : stripLit tagChars cs with
  | none => rw [hs] at h; exact absurd h (by simp)
  | some rest =>
    rw [hs] at h
    dsimp only at h
    by_cases hC : 1 ≤ (restDigits rest).length ∧ (restDigits rest).length ≤ 5 ∧
        ((rest.dropWhile regexWS).dropWhile isDigitCh).all regexWS = true ∧
        digitsToNat (restDigits rest) ≤ 65535
    · rw [if_pos hC] at h
      obtain ⟨hlen1, _, hr2, hval⟩ := hC
      obtain ⟨hcs, hsw⟩ := stripLit_some tagChars cs rest hs
      have hp : p = digitsToNat (restDigits rest) := (Option.some.inj h).symm
      have hws1 : ∀ c ∈ rest.takeWhile regexWS, regexWS c = true :=
        mem_takeWhile_sat regexWS rest
      have hdig : ∀ c ∈ restDigits rest, isDigitCh c = true :=
        mem_takeWhile_sat isDigitCh (rest.dropWhile regexWS)
      have hr2' : ∀ c ∈ (rest.dropWhile regexWS).dropWhile isDigitCh,
          regexWS c = true := List.all_eq_true.mp hr2
      have hrest : rest = rest.takeWhile regexWS ++
          (restDigits rest ++ (rest.dropWhile regexWS).dropWhile isDigitCh) := by
        rw [restDigits, List.takeWhile_append_dropWhile,
          List.takeWhile_append_dropWhile]
      have hBfree : ∀ c ∈ rest, c ≠ 'B' := by
        intro c hc
        rw [hrest] at hc
        rcases List.mem_append.mp hc with h1 | h12
        · exact ws_ne_B c (hws1 c h1)
        · rcases List.mem_append.mp h12 with h2 | h3
          · exact digit_ne_B c (hdig c h2)
          · exact ws_ne_B c (hr2' c h3)
      have hne : restDigits rest ≠ [] := by
        intro he
        rw [he] at hlen1
        exact absurd hlen1 (by simp)
      unfold announcedValue
      rw [hcs, startsWith_app, if_pos rfl, removeAll_tag rest hBfree]
      have htrim : trimRust rest = restDigits rest := by
        calc trimRust rest
            = trimRust (rest.takeWhile regexWS ++ restDigits rest ++
                (rest.dropWhile regexWS).dropWhile isDigitCh) := by
              rw [← List.append_assoc] at hrest
              rw [← hrest]
          _ = restDigits rest :=
              trim_shape _ _ _
                (fun c hc => regexWS_rustWS c (hws1 c hc)) hdig hne
                (fun c hc => regexWS_rustWS c (hr2' c hc))
      rw [htrim, parseU16_digits _ hne hdig hval, hp]
    · rw [if_neg hC] at h
      exact absurd h (by simp)

/-- A stdout line the relay parses successfully: full description of
the resulting state and effect trace. -/
lemma handleEvent_stdout_some (st : AppState) (line : List Char) (p : Nat)
    (h : announcedValue line = some p) :
    handleEvent st (.stdout line) =
      ({ st with backend_port := some p },
       [.acqPortLock, .wrPort p, .relPortLock, .emitReady p,
        .logInfo ("Backend started on port: " ++ toString p)]) := by
  unfold announcedValue at h
  by_cases hs : startsWithChars tagChars line = true
  · rw [if_pos hs] at h
    unfold handleEvent
    dsimp only
    rw [if_pos hs, h]
  · rw [if_neg hs] at h
    exact absurd h (by simp)

/-- A stdout line the relay does not parse leaves the state unchanged
and emits nothing. -/
lemma handleEvent_stdout_none (st : AppState) (line : List Char)
    (h : announcedValue line = none) :
    (handleEvent st (.stdout line)).1 = st ∧
      countEmits (handleEvent st (.stdout line)).2 = 0 := by
  unfold announcedValue at h
  by_cases hs : startsWithChars tagChars line = true
  · rw [if_pos hs] at h
    unfold handleEvent
    dsimp only
    rw [if_pos hs, h]
    exact ⟨rfl, rfl⟩
  · have hs' : startsWithChars tagChars line = false := by
      cases hb : startsWithChars tagChars line
      · rfl
      · exact absurd hb hs
    unfold handleEvent
    dsimp only
    rw [hs']
    simp only [Bool.false_eq_true, if_false]
    refine ⟨?_, ?_⟩ <;> first | rfl | trivial

/-- `(a :: l).getLast?` in terms of `l.getLast?`. -/
lemma getLast?_cons_eq (a : Nat) (l : List Nat) :
    (a :: l).getLast? =
      match l.getLast? with
      | some v => some v
      | none => some a := by
  cases l with
  | nil => rfl
  | cons b t =>
    rw [List.getLast?_cons_cons]
    cases ht : (b :: t).getLast? with
    | none => exact absurd (List.getLast?_eq_none_iff.mp ht) (by simp)
    | some v => rfl

/-- The port after folding the relay over a list of stdout lines is the
most recently announced value, or the prior port if none announced. -/
lemma processLines_port : ∀ (lines : List (List Char)) (st : AppState),
    (processLines st lines).backend_port =
      match (lines.filterMap announcedValue).getLast? with
      | some v => some v
      | none => st.backend_port := by
  intro lines
  induction lines with
  | nil => intro st; rfl
  | cons l rest ih =>
    intro st
    have hstep : processLines st (l :: rest) =
        processLines (handleEvent st (.stdout l)).1 rest := rfl
    rw [hstep]
    cases hl : announcedValue l with
    | none =>
      rw [ih, (handleEvent_stdout_none st l hl).1]
      rw [List.filterMap_cons, hl]
    | some p =>
      rw [ih, handleEvent_stdout_some st l p hl]
      rw [List.filterMap_cons, hl, getLast?_cons_eq]
      cases (rest.filterMap announcedValue).getLast? <;> rfl

/-- The child-process slot is empty after any `stop_backend` call. -/
lemma stop_backend_slot_empty (st : AppState) (killRes : Except String Unit) :
    (stop_backend st killRes).1.child_process = none := by
  unfold stop_backend
  cases hsc : st.child_process with
  | none => exact hsc
  | some child => cases killRes <;> rfl

/-- The child-process slot is empty after the close-event handler. -/
lemma onClose_slot_empty (st : AppState) (killRes : Except String Unit) :
    (onCloseRequested st killRes).1.child_process = none := by
  unfold onCloseRequested
  cases hsc : st.child_process with
  | none => exact hsc
  | some child => cases killRes <;> rfl

/-- `stop_backend` on a state with an empty child slot is a no-op. -/
lemma stop_backend_noop (st : AppState) (killRes : Except String Unit)
    (h : st.child_process = none) :
    stop_backend st killRes = (st, [], Except.ok ()) := by
  unfold stop_backend
  rw [h]

/-- The close-event handler on a state with an empty child slot is a
no-op. -/
lemma onClose_noop (st : AppState) (killRes : Except String Unit)
    (h : st.child_process = none) :
    onCloseRequested st killRes = (st, []) := by
  unfold onCloseRequested
  rw [h]

/-! ### Claims -/

/-- C1, counterexample: the stdout line `BACKEND_PORT:000123` does not
match `^BACKEND_PORT:\s*\d\x7b1,5\x7d\s*$` (six digits), yet the relay
mutates the port registry from empty to `123`, so a line outside the
regex shape can mutate the registry. -/
theorem C1_counterexample_nonregex_line_mutates :
    specAnnounce "BACKEND_PORT:000123".data = none ∧
    defaultState.backend_port = none ∧
    (handleEvent defaultState (.stdout "BACKEND_PORT:000123".data)).1.backend_port =
      some 123 := by
  refine ⟨by decide, rfl, by decide⟩

/-- C1, amended: every stdout line matching
`^BACKEND_PORT:\s*\d\x7b1,5\x7d\s*$` with value in `[0, 65535]` updates
the registry to that value and emits exactly one backend-ready
notification carrying it; but the set of mutating lines is exactly
those whose tag-stripped, trimmed remainder parses as `u16`
(`announcedValue`), which is larger than the regex shape; every line
that fails that parse leaves the registry unchanged and emits
nothing. -/
theorem C1_announcement_update_and_emit :
    ∀ (st : AppState) (line : List Char),
      (∀ p, specAnnounce line = some p →
        (handleEvent st (.stdout line)).1.backend_port = some p ∧
        countEmits (handleEvent st (.stdout line)).2 = 1 ∧
        Action.emitReady p ∈ (handleEvent st (.stdout line)).2) ∧
      (announcedValue line = none →
        (handleEvent st (.stdout line)).1 = st ∧
        countEmits (handleEvent st (.stdout line)).2 = 0) := by
  intro st line
  constructor
  · intro p hp
    have hc : announcedValue line = some p := spec_le_code line p hp
    rw [handleEvent_stdout_some st line p hc]
    refine ⟨rfl, rfl, ?_⟩
    simp
  · exact handleEvent_stdout_none st line

/-- C1, witness: the regex-shaped line `BACKEND_PORT: 4321` updates the
registry to `4321` with exactly one notification, and the plain line
`starting up` leaves the state untouched. -/
theorem C1_announcement_update_and_emit_witness :
    (handleEvent defaultState (.stdout "BACKEND_PORT: 4321".data)).1.backend_port =
      some 4321 ∧
    countEmits (handleEvent defaultState (.stdout "BACKEND_PORT: 4321".data)).2 = 1 ∧
    (handleEvent defaultState (.stdout "starting up".data)).1 = defaultState :=
  ⟨((C1_announcement_update_and_emit defaultState _).1 4321 (by decide)).1,
   ((C1_announcement_update_and_emit defaultState _).1 4321 (by decide)).2.1,
   ((C1_announcement_update_and_emit defaultState _).2 (by decide)).1⟩

/-- C2, counterexample: when `spawn()` fails, `start_backend` does not
return an error to the caller; it panics through
`.expect("Failed to spawn sidecar")`. -/
theorem C2_counterexample_spawn_failure_panics :
    start_backend defaultState (.ok ())
        (.error "No such file or directory (os error 2)") =
      .panicked defaultState "Failed to spawn sidecar" :=
  rfl

/-- C2, amended: a failing spawn makes `start_backend` panic (via
`.expect`) rather than return a `SpawnFailed` error; the panic occurs
before any state write, so the port registry and the child slot keep
their prior values — both empty when starting from the default
state. -/
theorem C2_spawn_failure_state_unchanged :
    ∀ (st : AppState) (e : String),
      start_backend st (.ok ()) (.error e) =
        .panicked st "Failed to spawn sidecar" := by
  intro st e
  rfl

/-- C3, counterexample: the stdout line `BACKEND_PORT:notanumber`
starts with the tag and fails to parse, but the relay does not forward
it to the logging sink: the effect trace is empty (while the registry
indeed stays empty). -/
theorem C3_counterexample_malformed_not_logged :
    startsWithChars tagChars "BACKEND_PORT:notanumber".data = true ∧
    (handleEvent defaultState (.stdout "BACKEND_PORT:notanumber".data)).2 = [] ∧
    (handleEvent defaultState (.stdout "BACKEND_PORT:notanumber".data)).1.backend_port =
      none := by
  refine ⟨by decide, by decide, by decide⟩

/-- C3, amended: a stdout line that starts with `BACKEND_PORT:` but
whose remainder fails the `u16` parse is silently dropped: no log
output, no state change, no notification, and no error — the `else`
branch printing `[sidecar stdout]` belongs to the tag test, not to the
parse. -/
theorem C3_malformed_announcement_dropped :
    ∀ (st : AppState) (line : List Char),
      startsWithChars tagChars line = true →
      parseU16 (trimRust (removeAll tagChars line)) = none →
      handleEvent st (.stdout line) = (st, []) := by
  intro st line h1 h2
  unfold handleEvent
  dsimp only
  rw [if_pos h1, h2]

/-- C3, witness: feeding `BACKEND_PORT:notanumber` to the relay leaves
the default state unchanged and produces no effects. -/
theorem C3_malformed_announcement_dropped_witness :
    handleEvent defaultState (.stdout "BACKEND_PORT:notanumber".data) =
      (defaultState, []) :=
  C3_malformed_announcement_dropped defaultState _ (by decide) (by decide)

/-- C4: `stop_backend` takes the child handle out of its slot at most
once.  With an empty slot it performs no kill and returns `Ok`; a call
always issues at most one kill; after any call the slot is empty, so
the immediately following call performs no kill and returns `Ok`; the
close-event handler has the same exactly-once-take semantics. -/
theorem C4_stop_at_most_once :
    ∀ (st : AppState) (kr : Except String Unit),
      (st.child_process = none → stop_backend st kr = (st, [], Except.ok ())) ∧
      countKills (stop_backend st kr).2.1 ≤ 1 ∧
      (∀ kr2, stop_backend (stop_backend st kr).1 kr2 =
        ((stop_backend st kr).1, [], Except.ok ())) ∧
      (st.child_process = none → onCloseRequested st kr = (st, [])) ∧
      (∀ kr2, onCloseRequested (onCloseRequested st kr).1 kr2 =
        ((onCloseRequested st kr).1, [])) := by
  intro st kr
  refine ⟨fun h => stop_backend_noop st kr h, ?_, ?_, fun h => onClose_noop st kr h, ?_⟩
  · cases hsc : st.child_process with
    | none => rw [stop_backend_noop st kr hsc]; simp [countKills]
    | some child =>
      unfold stop_backend
      rw [hsc]
      cases kr <;> simp [countKills, List.countP_cons]
  · intro kr2
    exact stop_backend_noop _ kr2 (stop_backend_slot_empty st kr)
  · intro kr2
    exact onClose_noop _ kr2 (onClose_slot_empty st kr)

/-- C4, witness: stopping with no prior start is a no-op returning
`Ok`; after stopping a running child, a second stop is a no-op
returning `Ok`; the close handler with an empty slot does nothing. -/
theorem C4_stop_at_most_once_witness :
    stop_backend defaultState (.ok ()) = (defaultState, [], Except.ok ()) ∧
    stop_backend (stop_backend ⟨some 4321, some 7⟩ (.ok ())).1 (.ok ()) =
      ((stop_backend ⟨some 4321, some 7⟩ (.ok ())).1, [], Except.ok ()) ∧
    onCloseRequested defaultState (.ok ()) = (defaultState, []) :=
  ⟨(C4_stop_at_most_once defaultState (.ok ())).1 rfl,
   (C4_stop_at_most_once ⟨some 4321, some 7⟩ (.ok ())).2.2.1 (.ok ()),
   (C4_stop_at_most_once defaultState (.ok ())).2.2.2.1 rfl⟩

/-- C5, counterexample: on the announcement `BACKEND_PORT: 4321` the
relay emits exactly one ready notification, but the emission is not
inside the port-registry critical section — the inner block scope
drops the lock before `emit` runs. -/
theorem C5_counterexample_emit_outside_lock :
    countEmits (handleEvent defaultState (.stdout "BACKEND_PORT: 4321".data)).2 = 1 ∧
    emitsUnderLock (handleEvent defaultState (.stdout "BACKEND_PORT: 4321".data)).2 =
      false := by
  refine ⟨by decide, by decide⟩

/-- C5, amended: on every successful parse the effect order is: acquire
the port lock, write the port, release the lock, and only then emit the
ready notification — write strictly before emit (so an observer of the
notification sees a value at least as fresh as the notified one), but
the emit is outside the critical section, not under it. -/
theorem C5_write_precedes_emit :
    ∀ (st : AppState) (line : List Char) (p : Nat),
      announcedValue line = some p →
      (handleEvent st (.stdout line)).2 =
        [Action.acqPortLock, Action.wrPort p, Action.relPortLock, Action.emitReady p,
         Action.logInfo ("Backend started on port: " ++ toString p)] ∧
      (handleEvent st (.stdout line)).1.backend_port = some p := by
  intro st line p h
  rw [handleEvent_stdout_some st line p h]
  exact ⟨rfl, rfl⟩

/-- C5, witness: the full effect trace for `BACKEND_PORT: 4321`. -/
theorem C5_write_precedes_emit_witness :
    (handleEvent defaultState (.stdout "BACKEND_PORT: 4321".data)).2 =
      [Action.acqPortLock, Action.wrPort 4321, Action.relPortLock,
       Action.emitReady 4321,
       Action.logInfo ("Backend started on port: " ++ toString 4321)] :=
  (C5_write_precedes_emit defaultState _ 4321 (by decide)).1

/-- C6: starting from the default state, `get_backend_port` returns
`Ok(None)` while no stdout line has announced a port, and after any
sequence of lines it returns `Ok(Some v)` for `v` the most recently
parsed announcement — last write wins. -/
theorem C6_getPort_last_announcement :
    ∀ (lines : List (List Char)),
      get_backend_port (processLines defaultState lines) =
        .ok ((lines.filterMap announcedValue).getLast?) := by
  intro lines
  unfold get_backend_port
  rw [processLines_port lines defaultState]
  cases (lines.filterMap announcedValue).getLast? <;> rfl

/-- C7: when the kill request fails, `stop_backend` returns an error
whose message carries the underlying cause, and the child slot is
nevertheless empty afterwards (the handle was taken before the kill),
so the next `stop_backend` is a no-op returning `Ok`. -/
theorem C7_kill_failure_error_slot_empty :
    ∀ (st : AppState) (child : Nat) (e : String),
      st.child_process = some child →
      stop_backend st (.error e) =
        ({ st with child_process := none }, [Action.kill child],
         Except.error ("Failed to kill backend process: " ++ e)) ∧
      (∀ kr2, stop_backend (stop_backend st (.error e)).1 kr2 =
        ((stop_backend st (.error e)).1, [], Except.ok ())) := by
  intro st child e h
  constructor
  · unfold stop_backend
    rw [h]
  · intro kr2
    exact stop_backend_noop _ kr2 (stop_backend_slot_empty st (.error e))

/-- C7, witness: a failing kill on a running child yields the formatted
error, an emptied slot, and a no-op second stop. -/
theorem C7_kill_failure_error_slot_empty_witness :
    stop_backend ⟨none, some 7⟩ (Except.error "EPERM") =
      (⟨none, none⟩, [Action.kill 7],
       Except.error "Failed to kill backend process: EPERM") ∧
    stop_backend (stop_backend ⟨none, some 7⟩ (Except.error "EPERM")).1 (.ok ()) =
      ((stop_backend ⟨none, some 7⟩ (Except.error "EPERM")).1, [], Except.ok ()) :=
  ⟨(C7_kill_failure_error_slot_empty ⟨none, some 7⟩ 7 "EPERM" rfl).1,
   (C7_kill_failure_error_slot_empty ⟨none, some 7⟩ 7 "EPERM" rfl).2 (.ok ())⟩

/-- C8: neither `stop_backend` nor the close-event handler ever touches
the stored port: the `backend_port` field after the call equals its
value before, whether or not a child was killed. -/
theorem C8_stop_preserves_port :
    ∀ (st : AppState) (kr : Except String Unit),
      (stop_backend st kr).1.backend_port = st.backend_port ∧
      (onCloseRequested st kr).1.backend_port = st.backend_port := by
  intro st kr
  constructor
  · unfold stop_backend
    cases hsc : st.child_process with
    | none => rfl
    | some child => cases kr <;> rfl
  · unfold onCloseRequested
    cases hsc : st.child_process with
    | none => rfl
    | some child => cases kr <;> rfl

/-- C9: every stderr line — including one reading `BACKEND_PORT:80` —
is forwarded verbatim to the diagnostic sink and never parsed: the
state is unchanged and no ready notification is emitted. -/
theorem C9_stderr_never_parsed :
    ∀ (st : AppState) (line : List Char),
      handleEvent st (.stderr line) =
        (st, [Action.logErr ("[sidecar stderr]: " ++ String.mk line)]) ∧
      (handleEvent st (.stderr line)).1.backend_port = st.backend_port ∧
      countEmits (handleEvent st (.stderr line)).2 = 0 := by
  intro st line
  exact ⟨rfl, rfl, rfl⟩

/-- C10: `get_backend_port` always returns `Ok` of the stored optional
port; its `Err` branch is unreachable. -/
theorem C10_getPort_never_errors :
    ∀ st : AppState, get_backend_port st = .ok st.backend_port := by
  intro st
  rfl

end FSai
